import Mathlib

/-!
Verification of the zrpc RPC framework (server, registry, client, multiserver,
object pool) against its natural-language specification.

The Python sources are shallowly embedded: dynamic values become the type
Value, exceptions become the record PyExc, fallible computations become the
type PyResult, and the stateful components (server loop, multiserver startup,
object pool) become explicit state-passing functions or event traces.
-/

/-- Dynamic values carried in request params, results and exception args.
Atoms of BSON-serializable data (null, booleans, integers, strings) plus
foreignObj, which stands for a Python object the BSON codec cannot encode;
sequences appear as List Value. -/
inductive Value where
  | null
  | bool (b : Bool)
  | int (n : Int)
  | str (s : String)
  | foreignObj (tag : Nat)
deriving DecidableEq, Repr

/-- Whether the BSON codec can encode a single value (encoding a foreign
object raises TypeError, which is the failure the server probe catches). -/
def Value.encodable : Value → Bool
  | .foreignObj _ => false
  | _ => true

/-- BSON.encode on a document holding one list-valued field (the shape the
server probes with BSON.encode on a dict holding args, from
src/lib/zrpc/server.py lines 80-81): succeeds returning opaque bytes
(abstracted as the value list itself) iff every element is encodable,
otherwise fails (raising TypeError in the source). -/
def BSON.encodeArgsDoc (args : List Value) : Option (List Value) :=
  if args.all Value.encodable then some args else none

/-- A Python exception value: the module of its class, the name of its class
(the __name__ attribute), its str rendering, and its args tuple. -/
structure PyExc where
  module : String
  name : String
  strRepr : String
  args : List Value
deriving DecidableEq, Repr

/-- The last line of traceback.format_exception_only for an exception, as the
Python 2.7 stdlib renders it: the class __name__, then a colon and the str of
the exception when that str is nonempty, and the bare class name otherwise. -/
def formatExceptionOnly (e : PyExc) : String :=
  if e.strRepr = "" then e.name else e.name ++ ": " ++ e.strRepr

/-- The fully-qualified type string the server builds for an exception
(server.py line 75): module, a dot, then the class name. -/
def PyExc.typeString (e : PyExc) : String :=
  e.module ++ "." ++ e.name

/-- Outcome of running a Python computation: a returned value or a raised
exception. -/
inductive PyResult (α : Type) where
  | ok (v : α)
  | exn (e : PyExc)
deriving DecidableEq, Repr

/-- The error sub-record of a response envelope. The args field is an Option
because the source conditionally inserts the key into the dict. -/
structure ErrorRecord where
  type : String
  message : String
  args : Option (List Value)
deriving DecidableEq, Repr

/-- A response envelope: result (null on failure), error (none models the
Python None placed on success), and id (none models the absent key). -/
structure Response where
  result : Value
  error : Option ErrorRecord
  id : Option Value
deriving DecidableEq, Repr

/-- A request envelope as the server consumes it: optional correlation id,
a method name and positional params. -/
structure Request where
  id : Option Value
  method : String
  params : List Value
deriving Repr

/-- Server.get_response (server.py lines 62-87), applied to the outcome of
func(args): on success the result carries the returned value and error is
None; on an exception the result stays None and error holds the type string,
the formatted message, and the args tuple when the BSON probe on a dict
holding the args succeeds (the TypeError from a failed probe is caught and
the args key is simply omitted). -/
def Server.get_response (outcome : PyResult Value) : Response :=
  match outcome with
  | .ok v => { result := v, error := none, id := none }
  | .exn exc =>
      let base : ErrorRecord :=
        { type := exc.typeString, message := formatExceptionOnly exc, args := none }
      let rec' : ErrorRecord :=
        match BSON.encodeArgsDoc exc.args with
        | some _ => { base with args := some exc.args }
        | none => base
      { result := .null, error := some rec', id := none }

/-- A registry is a finite association of method names to handlers; a handler
takes the positional params and either returns a value or raises. -/
abbrev Registry := List (String × (List Value → PyResult Value))

/-- The MissingMethod exception (exceptions.py) as raised with the method
name as its single argument: class zrpc.exceptions.MissingMethod, whose str
is the name (the single-argument Exception rendering) and whose args tuple
is the one-element tuple holding the name. -/
def missingMethod (name : String) : PyExc :=
  { module := "zrpc.exceptions", name := "MissingMethod",
    strRepr := name, args := [.str name] }

/-- Registry.__call__ (registry.py lines 32-37): look the name up in the
dict; a KeyError becomes MissingMethod(name); otherwise invoke the handler
on the positional arguments, letting any exception it raises propagate. -/
def Registry.dispatch (reg : Registry) (name : String) (args : List Value) :
    PyResult Value :=
  match reg.lookup name with
  | none => .exn (missingMethod name)
  | some h => h args

/-- Server.process_message (server.py lines 89-111): build the response from
get_response on dispatching the method with the params, then copy the id key
over exactly when the request carries one. -/
def Server.process_message (reg : Registry) (msg : Request) : Response :=
  let response := Server.get_response (Registry.dispatch reg msg.method msg.params)
  { response with id := msg.id }

example : Server.get_response (.ok (.int 7)) =
    { result := .int 7, error := none, id := none } := by decide

example : (Server.get_response (.exn (missingMethod "doesnotexist"))).error =
    some { type := "zrpc.exceptions.MissingMethod",
           message := "MissingMethod: doesnotexist",
           args := some [.str "doesnotexist"] } := by decide

/-- Python truthiness of the optional die_after argument: None and 0 are
falsy, every other integer is truthy. -/
def pyTruthy : Option Nat → Bool
  | none => false
  | some n => !(n = 0)

/-- The iterator chosen by Server.run (server.py line 136) with the idiom
die_after and repeat(None, die_after) or repeat(None): a bounded count of
iterations when die_after is truthy, and an unbounded iterator (encoded as
none) when die_after is None or 0. -/
def Server.loopIterations (die_after : Option Nat) : Option Nat :=
  if pyTruthy die_after then die_after else none

/-- The request loop of Server.run (server.py lines 137-141) on an incoming
request stream, with the transport raising no error: when the chosen
iterator is bounded by n, the loop performs exactly n
receive/decode/process/encode/send iterations, producing the responses to
the first n requests in order, and then stops; an unbounded iterator
(encoded as none) never lets the loop terminate. -/
def Server.runLoop (reg : Registry) (die_after : Option Nat)
    (incoming : Nat → Request) : Option (List Response) :=
  match Server.loopIterations die_after with
  | none => none
  | some n => some ((List.range n).map (fun i => Server.process_message reg (incoming i)))

/-- One step the MultiServer.run thread takes (multiserver.py lines 27-71),
together with the synchronization meaning of the wait steps: spawnLoadbal
starts the load balancer thread; waitLoadbal returns from
loadbal_callback.wait(), hence strictly after the load balancer callback has
fired with its sockets bound; spawnWorker i starts worker i; waitWorker i
returns from the wait on the callback of worker i, hence strictly after that
worker has connected and signalled, yielding its socket (abstracted as the
index i); sendComposed fires the composed callback with the list of worker
sockets gathered from the waits. -/
inductive MSEvent where
  | spawnLoadbal
  | waitLoadbal
  | spawnWorker (i : Nat)
  | waitWorker (i : Nat)
  | sendComposed (sockets : List Nat)
deriving DecidableEq, Repr

/-- The sequence of steps MultiServer.run executes for n_workers workers
(multiserver.py lines 45-71): spawn the load balancer and wait on its
callback, spawn each of the n workers in order, wait on each worker callback
in order collecting the sockets, and finally send the socket list to the
composed callback. -/
def MultiServer.runTrace (n_workers : Nat) : List MSEvent :=
  [.spawnLoadbal, .waitLoadbal]
    ++ (List.range n_workers).map MSEvent.spawnWorker
    ++ (List.range n_workers).map MSEvent.waitWorker
    ++ [.sendComposed (List.range n_workers)]

example : MultiServer.runTrace 2 =
    [.spawnLoadbal, .waitLoadbal, .spawnWorker 0, .spawnWorker 1,
     .waitWorker 0, .waitWorker 1, .sendComposed [0, 1]] := by decide

/-- The characters of a string that follow its last dot (the whole string
when it has no dot): the Python expression error_type.split(".")[-1] used by
Error._get_error_cls (client.py line 14). -/
def genericTypeChars (l : List Char) : List Char :=
  l.foldl (fun acc c => if c = '.' then [] else acc ++ [c]) []

/-- The generic (leaf) type name of a fully-qualified error type string. -/
def genericType (s : String) : String :=
  ⟨genericTypeChars s.data⟩

/-- A synthesized client-side error class. Each call of Python type() makes
one class object; the source creates at most one class per cache key, so a
class is determined by the key it was created for together with its base,
and structural equality coincides with Python class identity. root is the
zrpc.client.Error class itself. -/
inductive Cls where
  | root
  | derived (key : String) (base : Cls)
deriving DecidableEq, Repr

/-- Python issubclass for the synthesized classes: reflexive, and following
the single base chain down to root. -/
def Cls.isSubclassOf : Cls → Cls → Bool
  | c, d =>
    c = d ||
      match c with
      | .root => false
      | .derived _ base => base.isSubclassOf d

/-- The _class_cache dict of the Error metaclass, as an association list
from cache key (leaf name or fully-qualified name) to synthesized class. -/
def ClassCache := List (String × Cls)

/-- The first if-block of Error._get_error_cls (client.py lines 15-17): if
the leaf name is not cached, cache a fresh class deriving from the root
Error class under it. -/
def ensureGeneric (cache : ClassCache) (generic : String) : ClassCache :=
  match List.lookup generic cache with
  | some _ => cache
  | none => (generic, Cls.derived generic Cls.root) :: cache

/-- The second if-block of Error._get_error_cls (client.py lines 18-20): if
the full type string is not cached, cache a fresh class deriving from the
class cached under the leaf name. -/
def ensureFull (cache : ClassCache) (generic error_type : String) :
    ClassCache :=
  match List.lookup error_type cache with
  | some _ => cache
  | none =>
      (error_type,
       Cls.derived error_type ((List.lookup generic cache).getD Cls.root))
        :: cache

/-- Error._get_error_cls (client.py lines 13-21) called on the root Error
class: compute the leaf name, run the two caching if-blocks, and return the
class cached under the full type string, together with the updated cache. -/
def getErrorCls (cache : ClassCache) (error_type : String) :
    Cls × ClassCache :=
  let generic := genericType error_type
  let cache2 := ensureFull (ensureGeneric cache generic) generic error_type
  (((List.lookup error_type cache2).getD Cls.root), cache2)

/-- Well-formedness of one cache entry, as _get_error_cls maintains it: a
dot-free key holds the leaf class derived straight from root, and a dotted
key holds a class derived from the leaf class of its leaf name. -/
def entryOK : String × Cls → Bool
  | (k, c) =>
    if genericType k = k then c = Cls.derived k Cls.root
    else c = Cls.derived k (Cls.derived (genericType k) Cls.root)

/-- Well-formedness of the whole class cache. -/
def cacheOK (cache : ClassCache) : Bool :=
  cache.all entryOK

example : genericType "exceptions.TypeError" = "TypeError" := by decide
example : genericType "TypeError" = "TypeError" := by decide
example :
    (getErrorCls [] "exceptions.TypeError").1 =
      Cls.derived "exceptions.TypeError" (Cls.derived "TypeError" Cls.root) := by decide

/-- A bound client method: the client reference is behaviourally inert (it
only receives the final call), so the state is the composed method string
(client.py lines 93-110). -/
structure ClientMethod where
  method : String
deriving DecidableEq, Repr

/-- ClientMethod.__getattr__ and __getitem__ (client.py lines 101-105):
extend the method string with a dot and the accessed name. -/
def ClientMethod.access (m : ClientMethod) (attr : String) : ClientMethod :=
  ⟨m.method ++ "." ++ attr⟩

/-- Client.__getattr__ and __getitem__ (client.py lines 77-81): the first
access on the client makes a ClientMethod holding just that name. -/
def Client.access (attr : String) : ClientMethod :=
  ⟨attr⟩

/-- The ClientMethod reached by the access path a.b.c... from the client. -/
def Client.accessPath (first : String) (rest : List String) : ClientMethod :=
  rest.foldl ClientMethod.access (Client.access first)

/-- Client.__call__ (client.py lines 87-93): build the request envelope from
a fresh uuid, the method string and the positional params. Sending and
response processing do not alter the request, so the model returns the
envelope. -/
def Client.call (uuid : String) (method : String) (params : List Value) :
    Request :=
  { id := some (.str uuid), method := method, params := params }

/-- ClientMethod.__call__ (client.py lines 107-108): call the client with
the composed method string and the given positional arguments. -/
def ClientMethod.call (m : ClientMethod) (uuid : String) (args : List Value) :
    Request :=
  Client.call uuid m.method args

example : (Client.accessPath "a" ["b", "c"]).method = "a.b.c" := by decide

/-- State of an ObjectPool (object_pool.py) bounded by maxsize. Pool objects
are identified by the order the factory created them in: free is the deque
self.objects, checkedOut the multiset of objects currently inside a with
pool.get() block, permits the available count of the bounded semaphore, and
nextId the number of objects the factory has produced. -/
structure PoolState where
  free : List Nat
  checkedOut : List Nat
  permits : Nat
  nextId : Nat
deriving DecidableEq, Repr

/-- The freshly constructed pool with maxsize K: empty free list, nothing
checked out, a semaphore holding K permits, no objects created yet. -/
def PoolState.init (K : Nat) : PoolState :=
  { free := [], checkedOut := [], permits := K, nextId := 0 }

/-- The entry half of ObjectPool.get (object_pool.py lines 78-82): acquire
the semaphore (none when no permit is available and the call would block),
then under the lock pop the leftmost free object or make a new one with the
factory; the object is handed to the with block and recorded as checked
out. -/
def PoolState.acquire (s : PoolState) : Option (Nat × PoolState) :=
  if s.permits = 0 then none
  else
    match s.free with
    | o :: rest =>
        some (o, { s with free := rest,
                          checkedOut := s.checkedOut ++ [o],
                          permits := s.permits - 1 })
    | [] =>
        some (s.nextId, { s with checkedOut := s.checkedOut ++ [s.nextId],
                                 permits := s.permits - 1,
                                 nextId := s.nextId + 1 })

/-- The exit half of ObjectPool.get when the with block finishes normally
(object_pool.py lines 83-84 and the finally of acquiring, lines 118-123):
the object is appended to the free list and the semaphore released. -/
def PoolState.releaseNormal (s : PoolState) (o : Nat) : PoolState :=
  { s with free := s.free ++ [o],
           checkedOut := s.checkedOut.erase o,
           permits := s.permits + 1 }

/-- The exit half of ObjectPool.get when the with block raises: the
exception enters get at the yield (line 83), so the append on line 84 is
skipped and only the finally of acquiring runs, releasing the semaphore;
the object is dropped. -/
def PoolState.releaseExn (s : PoolState) (o : Nat) : PoolState :=
  { s with checkedOut := s.checkedOut.erase o,
           permits := s.permits + 1 }

/-- Invariant tying a pool state to its maxsize K: the permits outstanding
account exactly for the checked-out objects, the free list never exceeds
the available permits, no object is listed twice across the free list and
the checkout record, and every listed object was produced by the factory. -/
def PoolState.inv (K : Nat) (s : PoolState) : Bool :=
  (s.checkedOut.length + s.permits = K) &&
  (s.free.length ≤ s.permits) &&
  (s.free ++ s.checkedOut).Nodup &&
  (s.free ++ s.checkedOut).all (fun o => o < s.nextId)

example : PoolState.inv 2 (PoolState.init 2) = true := by decide
example : (PoolState.init 1).acquire =
    some (0, { free := [], checkedOut := [0], permits := 0, nextId := 1 }) := by decide

/-- One List.lookup hit names an entry of the association list. -/
theorem lookup_mem {β : Type} (k : String) (c : β) (l : List (String × β))
    (h : List.lookup k l = some c) : (k, c) ∈ l := by
  induction l with
  | nil => simp at h
  | cons p rest ih =>
      rw [List.lookup_cons] at h
      by_cases hk : (k == p.1) = true
      · simp [hk] at h
        have hkey : k = p.1 := by simpa [beq_iff_eq] using hk
        have hpc : (k, c) = p := by cases p; simp_all
        rw [hpc]
        exact List.mem_cons_self _ _
      · simp [hk] at h
        exact List.mem_cons_of_mem _ (ih h)

/-- Claim C1, counterexample: a handler that returns Python None yields a
response whose result and error are both null, so the exactly-one-non-null
property the claim asserts for null-returning handlers is false at this
input. -/
theorem get_response_null_counterexample :
    ¬ (((Server.get_response (.ok .null)).result ≠ .null ∧
          (Server.get_response (.ok .null)).error = none) ∨
        ((Server.get_response (.ok .null)).result = .null ∧
          (Server.get_response (.ok .null)).error ≠ none)) := by
  decide

/-- Claim C1 (amended): for every handler outcome other than a returned
null, exactly one of result and error in the response of Server.get_response
is non-null; moreover for every returned value the error is null and the
result is that value, and for every raised exception the result is null and
the error is a non-null record. (When the handler returns null, both fields
are null.) -/
theorem get_response_exactly_one (outcome : PyResult Value)
    (h : outcome ≠ .ok .null) :
    (((Server.get_response outcome).result ≠ .null ∧
        (Server.get_response outcome).error = none) ∨
      ((Server.get_response outcome).result = .null ∧
        (Server.get_response outcome).error ≠ none)) ∧
    (∀ v, outcome = .ok v →
      (Server.get_response outcome).error = none ∧
      (Server.get_response outcome).result = v) ∧
    (∀ e, outcome = .exn e →
      (Server.get_response outcome).result = .null ∧
      (Server.get_response outcome).error ≠ none) := by
  cases outcome with
  | ok v =>
      refine ⟨Or.inl ⟨fun hv => h ?_, rfl⟩, ?_, ?_⟩
      · simp only [Server.get_response] at hv
        rw [hv]
      · intro v2 hv2
        cases hv2
        exact ⟨rfl, rfl⟩
      · intro e he
        cases he
  | exn e =>
      refine ⟨Or.inr ⟨rfl, by simp [Server.get_response]⟩, ?_, ?_⟩
      · intro v hv
        cases hv
      · intro e2 he2
        cases he2
        exact ⟨rfl, by simp [Server.get_response]⟩

/-- Claim C1, witness at the outcome of a handler returning 7. -/
theorem get_response_exactly_one_witness :
    (PyResult.ok (Value.int 7) ≠ PyResult.ok Value.null) ∧
    ((((Server.get_response (.ok (.int 7))).result ≠ .null ∧
        (Server.get_response (.ok (.int 7))).error = none) ∨
      ((Server.get_response (.ok (.int 7))).result = .null ∧
        (Server.get_response (.ok (.int 7))).error ≠ none)) ∧
    (∀ v, PyResult.ok (Value.int 7) = .ok v →
      (Server.get_response (.ok (.int 7))).error = none ∧
      (Server.get_response (.ok (.int 7))).result = v) ∧
    (∀ e, PyResult.ok (Value.int 7) = .exn e →
      (Server.get_response (.ok (.int 7))).result = .null ∧
      (Server.get_response (.ok (.int 7))).error ≠ none)) :=
  ⟨by decide, get_response_exactly_one (.ok (.int 7)) (by decide)⟩

/-- Claim C2: dispatching a name not bound in the registry fails with
MissingMethod(name), and the server encodes it as a null-result response
whose error record has the fully-qualified missing-method class as its type
and the one-element list holding the name as its args; get_response is total
on this outcome, so the server does not crash. -/
theorem missing_method_response (reg : Registry) (name : String)
    (args : List Value) (h : List.lookup name reg = none) :
    Registry.dispatch reg name args = .exn (missingMethod name) ∧
    (Server.get_response (Registry.dispatch reg name args)).result = .null ∧
    ∃ rec, (Server.get_response (Registry.dispatch reg name args)).error = some rec ∧
      rec.type = "zrpc.exceptions.MissingMethod" ∧
      rec.args = some [.str name] := by
  have hd : Registry.dispatch reg name args = .exn (missingMethod name) := by
    simp [Registry.dispatch, h]
  refine ⟨hd, ?_, ?_⟩
  · rw [hd]
    rfl
  · rw [hd]
    refine ⟨{ type := "zrpc.exceptions.MissingMethod",
              message := formatExceptionOnly (missingMethod name),
              args := some [.str name] }, ?_, rfl, rfl⟩
    simp [Server.get_response, BSON.encodeArgsDoc, missingMethod,
          PyExc.typeString, Value.encodable]

/-- Claim C2, witness: the empty registry and the method name from the
missing-method test. -/
theorem missing_method_response_witness :
    (List.lookup "doesnotexist" ([] : Registry) = none) ∧
    (Registry.dispatch [] "doesnotexist" [.int 3, .int 4] =
        .exn (missingMethod "doesnotexist") ∧
      (Server.get_response
          (Registry.dispatch [] "doesnotexist" [.int 3, .int 4])).result = .null ∧
      ∃ rec, (Server.get_response
          (Registry.dispatch [] "doesnotexist" [.int 3, .int 4])).error = some rec ∧
        rec.type = "zrpc.exceptions.MissingMethod" ∧
        rec.args = some [.str "doesnotexist"]) :=
  ⟨rfl, missing_method_response [] "doesnotexist" [.int 3, .int 4] rfl⟩

/-- The error record Server.get_response builds for a raised exception, in
closed form: the two case analyses (probe success and failure) folded into
one if-expression on the encodability of the args. -/
theorem get_response_error_record (e : PyExc) :
    (Server.get_response (.exn e)).error =
      some { type := e.typeString, message := formatExceptionOnly e,
             args := if e.args.all Value.encodable then some e.args
                     else none } := by
  by_cases h : e.args.all Value.encodable = true
  · simp [Server.get_response, BSON.encodeArgsDoc, h]
  · have h2 : e.args.all Value.encodable = false := by
      cases hb : e.args.all Value.encodable
      · rfl
      · exact absurd hb h
    simp [Server.get_response, BSON.encodeArgsDoc, h2]

/-- Claim C3: for every exception raised by a handler, the error record of
the response carries the args key exactly when the BSON probe on the args
succeeds, which happens exactly when every arg is encodable; when the probe
fails the response is still produced, with its type and message fields
intact and the args key absent. -/
theorem error_args_iff_encodable (e : PyExc) :
    ∃ rec, (Server.get_response (.exn e)).error = some rec ∧
      rec.args = (if e.args.all Value.encodable then some e.args else none) ∧
      (BSON.encodeArgsDoc e.args).isSome = e.args.all Value.encodable ∧
      rec.type = e.typeString ∧
      rec.message = formatExceptionOnly e := by
  refine ⟨{ type := e.typeString, message := formatExceptionOnly e,
            args := if e.args.all Value.encodable then some e.args
                    else none },
          get_response_error_record e, rfl, ?_, rfl, rfl⟩
  by_cases h : e.args.all Value.encodable = true
  · simp [BSON.encodeArgsDoc, h]
  · have h2 : e.args.all Value.encodable = false := by
      cases hb : e.args.all Value.encodable
      · rfl
      · exact absurd hb h
    simp [BSON.encodeArgsDoc, h2]

/-- Claim C4: the response built by process_message carries the id of the
request exactly when the request carries one (none models the absent key),
and the result and error fields do not depend on the presence or value of
the id. -/
theorem process_message_id_preservation (reg : Registry) (msg : Request)
    (alt : Option Value) :
    (Server.process_message reg msg).id = msg.id ∧
    (Server.process_message reg { msg with id := alt }).result =
      (Server.process_message reg msg).result ∧
    (Server.process_message reg { msg with id := alt }).error =
      (Server.process_message reg msg).error := by
  exact ⟨rfl, rfl, rfl⟩

/-- Claim C5, counterexample: for an exception whose str rendering is empty
(for example a bare Exception()), the message field is the bare class name
with no colon, not the class name followed by a colon, a space and the empty
str as the claim requires. -/
theorem error_message_counterexample :
    ((Server.get_response
        (.exn { module := "exceptions", name := "Exception",
                strRepr := "", args := [] })).error.map ErrorRecord.message) =
      some "Exception" ∧
    "Exception" ≠ "Exception" ++ ": " ++ "" := by
  decide

/-- Claim C5 (amended): for every exception raised by a handler, the error
record has type equal to the module of the class, a dot, and the class name;
and message equal to the class name, a colon and a space, and the str of the
exception when that str is nonempty, and the bare class name when the str is
empty. -/
theorem error_type_and_message (e : PyExc) :
    ∃ rec, (Server.get_response (.exn e)).error = some rec ∧
      rec.type = e.module ++ "." ++ e.name ∧
      rec.message = (if e.strRepr = "" then e.name
                     else e.name ++ ": " ++ e.strRepr) :=
  ⟨_, get_response_error_record e, rfl, rfl⟩

/-- Claim C6, counterexample: with die_after = 0 the Python-truthiness idiom
on line 136 of server.py picks the unbounded iterator, so the request loop
never terminates instead of terminating after exactly zero messages. -/
theorem run_loop_zero_counterexample :
    Server.runLoop [] (some 0)
        (fun _ => { id := none, method := "m", params := [] }) = none ∧
    Server.runLoop [] (some 0)
        (fun _ => { id := none, method := "m", params := [] }) ≠
      some [] := by
  refine ⟨rfl, ?_⟩
  intro hc
  simp [Server.runLoop, Server.loopIterations, pyTruthy] at hc

/-- Claim C6 (amended): for every positive die_after = n, the request loop
of Server.run terminates after exactly n receive/decode/process/encode/send
iterations when the transport raises no error, producing the responses to
the first n requests in order and performing no further receive. -/
theorem run_loop_die_after (reg : Registry) (incoming : Nat → Request)
    (n : Nat) (h : 0 < n) :
    Server.runLoop reg (some n) incoming =
      some ((List.range n).map (fun i => Server.process_message reg (incoming i))) ∧
    ((List.range n).map (fun i => Server.process_message reg (incoming i))).length = n := by
  constructor
  · have hn : ¬ n = 0 := Nat.pos_iff_ne_zero.mp h
    simp [Server.runLoop, Server.loopIterations, pyTruthy, hn]
  · simp

/-- Claim C6, witness at die_after = 1. -/
theorem run_loop_die_after_witness :
    0 < 1 ∧
    (Server.runLoop [] (some 1)
        (fun _ => { id := none, method := "m", params := [] }) =
      some ((List.range 1).map (fun i => Server.process_message []
        ((fun _ => ({ id := none, method := "m", params := [] } : Request)) i))) ∧
    ((List.range 1).map (fun i => Server.process_message []
        ((fun _ => ({ id := none, method := "m", params := [] } : Request)) i))).length = 1) :=
  ⟨by decide,
   run_loop_die_after [] (fun _ => { id := none, method := "m", params := [] }) 1 (by decide)⟩

/-- Folding the dot-append over a list of names equals the intercalation of
the names with dots. -/
theorem intercalate_dot_foldl : ∀ (rest : List String) (acc : String),
    String.intercalate "." (acc :: rest) =
      rest.foldl (fun s b => s ++ "." ++ b) acc := by
  intro rest
  induction rest with
  | nil => intro acc; rfl
  | cons b bs ih =>
      intro acc
      show String.intercalate "." ((acc ++ "." ++ b) :: bs) = _
      rw [ih]
      rfl

/-- The method string reached by folding attribute accesses over a
ClientMethod is the dot-fold of the accessed names over its method. -/
theorem accessPath_foldl : ∀ (rest : List String) (m : ClientMethod),
    (rest.foldl ClientMethod.access m).method =
      rest.foldl (fun s b => s ++ "." ++ b) m.method := by
  intro rest
  induction rest with
  | nil => intro m; rfl
  | cons b bs ih =>
      intro m
      simp only [List.foldl_cons]
      rw [ih]
      rfl

/-- Claim C9: the request produced by calling the client method reached by
the attribute path first.rest with given uuid and positional arguments is
exactly the envelope whose method is the dot-join of the path, whose params
are exactly those arguments, and whose id is the fresh uuid regardless of
the path, so the access path is a pure homomorphism into the method string
with no other effect on the request. -/
theorem client_access_path_request (first : String) (rest : List String)
    (uuid : String) (args : List Value) :
    (Client.accessPath first rest).call uuid args =
      { id := some (.str uuid),
        method := String.intercalate "." (first :: rest),
        params := args } := by
  show Client.call uuid (Client.accessPath first rest).method args = _
  rw [show (Client.accessPath first rest).method =
        String.intercalate "." (first :: rest) from ?_]
  · rfl
  · rw [intercalate_dot_foldl]
    exact accessPath_foldl rest (Client.access first)

/-- Claim C7: in the sequence of steps MultiServer.run executes, the send to
the composed callback is the final step, the wait on the load balancer
callback and the wait on every one of the n worker callbacks occur strictly
before it, and no send to the composed callback occurs anywhere earlier; as
each wait returns only after the corresponding ready-callback has fired
(with the device sockets bound, resp. the worker connected), the composed
on_ready is signalled with the list of the n worker sockets only after the
load balancer callback and all n worker callbacks have fired. -/
theorem multiserver_startup_ordering (n w : Nat) (hw : w < n) :
    ∃ before : List MSEvent,
      MultiServer.runTrace n = before ++ [.sendComposed (List.range n)] ∧
      MSEvent.waitLoadbal ∈ before ∧
      MSEvent.waitWorker w ∈ before ∧
      (∀ socks : List Nat, MSEvent.sendComposed socks ∉ before) := by
  refine ⟨[.spawnLoadbal, .waitLoadbal]
      ++ (List.range n).map MSEvent.spawnWorker
      ++ (List.range n).map MSEvent.waitWorker, ?_, ?_, ?_, ?_⟩
  · simp [MultiServer.runTrace]
  · simp
  · simp [List.mem_append, List.mem_map, List.mem_range]
    exact hw
  · intro socks
    simp [List.mem_append, List.mem_map]

/-- Claim C7, witness at one worker. -/
theorem multiserver_startup_ordering_witness :
    0 < 1 ∧
    ∃ before : List MSEvent,
      MultiServer.runTrace 1 = before ++ [.sendComposed (List.range 1)] ∧
      MSEvent.waitLoadbal ∈ before ∧
      MSEvent.waitWorker 0 ∈ before ∧
      (∀ socks : List Nat, MSEvent.sendComposed socks ∉ before) :=
  ⟨by decide, multiserver_startup_ordering 1 0 (by decide)⟩

/-- genericTypeChars never keeps a dot: auxiliary fold invariant. -/
theorem foldl_step_no_dot : ∀ (l acc : List Char), '.' ∉ acc →
    '.' ∉ List.foldl (fun acc c => if c = '.' then [] else acc ++ [c]) acc l := by
  intro l
  induction l with
  | nil => intro acc h; simpa using h
  | cons c cs ih =>
      intro acc h
      simp only [List.foldl_cons]
      by_cases hc : c = '.'
      · exact ih _ (by simp [hc])
      · refine ih _ ?_
        simp [hc, h]
        intro hcontra
        exact hc hcontra.symm

/-- Folding the dot-splitting step over a dot-free list appends it whole. -/
theorem foldl_step_app : ∀ (l acc : List Char), '.' ∉ l →
    List.foldl (fun acc c => if c = '.' then [] else acc ++ [c]) acc l = acc ++ l := by
  intro l
  induction l with
  | nil => intro acc _; simp
  | cons c cs ih =>
      intro acc h
      simp only [List.mem_cons, not_or] at h
      simp only [List.foldl_cons]
      rw [if_neg (fun hc => h.1 hc.symm)]
      rw [ih _ h.2]
      simp

/-- The leaf name of a type string contains no dot. -/
theorem genericTypeChars_no_dot (l : List Char) : '.' ∉ genericTypeChars l :=
  foldl_step_no_dot l [] (by simp)

/-- Taking the leaf name is idempotent. -/
theorem genericType_idem (s : String) :
    genericType (genericType s) = genericType s := by
  show String.mk (genericTypeChars (genericTypeChars s.data)) =
    String.mk (genericTypeChars s.data)
  congr 1
  have h := foldl_step_app (genericTypeChars s.data) []
    (genericTypeChars_no_dot s.data)
  simpa [genericTypeChars] using h

/-- List.lookup immediately hits a matching head. -/
theorem lookup_cons_self {β : Type} (k : String) (c : β) (l : List (String × β)) :
    List.lookup k ((k, c) :: l) = some c := by
  simp [List.lookup_cons]

/-- List.lookup skips a non-matching head. -/
theorem lookup_cons_ne {β : Type} (k k2 : String) (c : β) (l : List (String × β))
    (h : k ≠ k2) : List.lookup k ((k2, c) :: l) = List.lookup k l := by
  simp [List.lookup_cons, beq_false_of_ne h]

/-- Every class a well-formed cache associates to a key satisfies the
per-entry shape invariant. -/
theorem cacheOK_lookup (cache : ClassCache) (hwf : cacheOK cache = true)
    (k : String) (c : Cls) (h : List.lookup k cache = some c) :
    entryOK (k, c) = true := by
  have hm := lookup_mem k c cache h
  have := List.all_eq_true.mp hwf
  exact this _ hm

/-- In a well-formed cache, a dot-free key holds the leaf class derived from
root. -/
theorem cacheOK_lookup_generic (cache : ClassCache) (hwf : cacheOK cache = true)
    (g : String) (c : Cls) (hg : genericType g = g)
    (h : List.lookup g cache = some c) : c = Cls.derived g Cls.root := by
  have he := cacheOK_lookup cache hwf g c h
  simpa [entryOK, hg] using he

/-- Every class is a subclass of itself (Python issubclass is reflexive). -/
theorem isSubclassOf_refl (c : Cls) : c.isSubclassOf c = true := by
  cases c <;> simp [Cls.isSubclassOf]

/-- A derived class is a subclass of everything its base is a subclass of. -/
theorem isSubclassOf_step (k : String) (b d : Cls)
    (h : b.isSubclassOf d = true) : (Cls.derived k b).isSubclassOf d = true := by
  simp [Cls.isSubclassOf, h]

/-- After the first caching if-block, the leaf name maps to the leaf class
derived from root. -/
theorem ensureGeneric_lookup (cache : ClassCache) (g : String)
    (hgg : genericType g = g) (hwf : cacheOK cache = true) :
    List.lookup g (ensureGeneric cache g) = some (Cls.derived g Cls.root) := by
  unfold ensureGeneric
  rcases hcg : List.lookup g cache with _ | c0
  · simp [lookup_cons_self]
  · simp
    rw [hcg]
    rw [cacheOK_lookup_generic cache hwf g c0 hgg hcg]

/-- The first caching if-block preserves cache well-formedness. -/
theorem ensureGeneric_wf (cache : ClassCache) (g : String)
    (hgg : genericType g = g) (hwf : cacheOK cache = true) :
    cacheOK (ensureGeneric cache g) = true := by
  unfold ensureGeneric
  rcases hcg : List.lookup g cache with _ | c0
  · show cacheOK ((g, Cls.derived g Cls.root) :: cache) = true
    refine List.all_eq_true.mpr ?_
    intro x hx
    rcases List.mem_cons.mp hx with h1 | h2
    · rw [h1]
      simp [entryOK, hgg]
    · exact List.all_eq_true.mp hwf x h2
  · exact hwf

/-- The first caching if-block is a no-op on a cache already holding the
key. -/
theorem ensureGeneric_noop (cache : ClassCache) (g : String)
    (h : (List.lookup g cache).isSome = true) :
    ensureGeneric cache g = cache := by
  unfold ensureGeneric
  rcases hcg : List.lookup g cache with _ | c0
  · rw [hcg] at h
    simp at h
  · simp

/-- The second caching if-block is a no-op on a cache already holding the
full key. -/
theorem ensureFull_noop (cache : ClassCache) (g t : String)
    (h : (List.lookup t cache).isSome = true) :
    ensureFull cache g t = cache := by
  unfold ensureFull
  rcases hct : List.lookup t cache with _ | c0
  · rw [hct] at h
    simp at h
  · simp

/-- After the second caching if-block, run on a cache whose leaf name maps
to the leaf class: the full key maps to a class of the invariant shape, the
leaf mapping is untouched, and well-formedness is preserved. -/
theorem ensureFull_spec (cache : ClassCache) (t : String)
    (hwf : cacheOK cache = true)
    (hleaf : List.lookup (genericType t) cache =
      some (Cls.derived (genericType t) Cls.root)) :
    (∃ c, List.lookup t (ensureFull cache (genericType t) t) = some c ∧
      entryOK (t, c) = true) ∧
    List.lookup (genericType t) (ensureFull cache (genericType t) t) =
      some (Cls.derived (genericType t) Cls.root) ∧
    cacheOK (ensureFull cache (genericType t) t) = true := by
  unfold ensureFull
  rcases hct : List.lookup t cache with _ | c0
  · have hne : genericType t ≠ t := by
      intro he
      rw [he] at hleaf
      rw [hct] at hleaf
      exact Option.noConfusion hleaf
    have hin : List.lookup t
        ((t, Cls.derived t ((List.lookup (genericType t) cache).getD Cls.root))
          :: cache) =
        some (Cls.derived t (Cls.derived (genericType t) Cls.root)) := by
      rw [lookup_cons_self]
      rw [hleaf]
      rfl
    refine ⟨⟨Cls.derived t (Cls.derived (genericType t) Cls.root), hin, ?_⟩,
            ?_, ?_⟩
    · simp [entryOK, hne]
    · rw [lookup_cons_ne _ _ _ _ hne]
      exact hleaf
    · refine List.all_eq_true.mpr ?_
      intro x hx
      rcases List.mem_cons.mp hx with h1 | h2
      · rw [h1]
        rw [hleaf]
        simp [entryOK, hne]
      · exact List.all_eq_true.mp hwf x h2
  · exact ⟨⟨c0, hct, cacheOK_lookup cache hwf t c0 hct⟩, hleaf, hwf⟩

/-- Claim C8: the class the client synthesizes for an error type string is a
subclass of the class cached under the leaf name, which is itself a subclass
of the root Error class (and hence so is the synthesized class), so a raised
instance is catchable at the fully-qualified, leaf and root granularities;
repeating the synthesis for the same string returns the identical cached
class and leaves the cache unchanged; and the cache shape invariant is
maintained. -/
theorem error_class_synthesis (cache : ClassCache) (t : String)
    (hwf : cacheOK cache = true) :
    ((getErrorCls cache t).1).isSubclassOf
        ((List.lookup (genericType t) (getErrorCls cache t).2).getD Cls.root) = true ∧
    ((List.lookup (genericType t) (getErrorCls cache t).2).getD
        Cls.root).isSubclassOf Cls.root = true ∧
    ((getErrorCls cache t).1).isSubclassOf Cls.root = true ∧
    getErrorCls (getErrorCls cache t).2 t = getErrorCls cache t ∧
    cacheOK (getErrorCls cache t).2 = true := by
  have hgg : genericType (genericType t) = genericType t := genericType_idem t
  have h1 := ensureGeneric_lookup cache (genericType t) hgg hwf
  have hwf1 := ensureGeneric_wf cache (genericType t) hgg hwf
  obtain ⟨⟨c, hc, hcok⟩, hleaf2, hwf2⟩ :=
    ensureFull_spec (ensureGeneric cache (genericType t)) t hwf1 h1
  have hunf : getErrorCls cache t =
      (c, ensureFull (ensureGeneric cache (genericType t)) (genericType t) t) := by
    simp only [getErrorCls]
    rw [hc]
    rfl
  have hcsub : c.isSubclassOf (Cls.derived (genericType t) Cls.root) = true := by
    by_cases hif : genericType t = t
    · have : c = Cls.derived t Cls.root := by
        simpa [entryOK, hif] using hcok
      rw [this, hif]
      exact isSubclassOf_refl _
    · have : c = Cls.derived t (Cls.derived (genericType t) Cls.root) := by
        simpa [entryOK, hif] using hcok
      rw [this]
      exact isSubclassOf_step _ _ _ (isSubclassOf_refl _)
  rw [hunf]
  simp only [hleaf2, Option.getD_some]
  refine ⟨hcsub, isSubclassOf_step _ _ _ (isSubclassOf_refl _), ?_, ?_, hwf2⟩
  · by_cases hif : genericType t = t
    · have : c = Cls.derived t Cls.root := by
        simpa [entryOK, hif] using hcok
      rw [this]
      exact isSubclassOf_step _ _ _ (isSubclassOf_refl _)
    · have : c = Cls.derived t (Cls.derived (genericType t) Cls.root) := by
        simpa [entryOK, hif] using hcok
      rw [this]
      exact isSubclassOf_step _ _ _
        (isSubclassOf_step _ _ _ (isSubclassOf_refl _))
  · simp only [getErrorCls]
    rw [ensureGeneric_noop _ _ (by rw [hleaf2]; rfl)]
    rw [ensureFull_noop _ _ _ (by rw [hc]; rfl)]
    rw [hc]
    rfl

/-- Claim C8, witness at the empty cache and a dotted type string. -/
theorem error_class_synthesis_witness :
    cacheOK [] = true ∧
    (((getErrorCls [] "exceptions.TypeError").1).isSubclassOf
        ((List.lookup (genericType "exceptions.TypeError")
            (getErrorCls [] "exceptions.TypeError").2).getD Cls.root) = true ∧
      ((List.lookup (genericType "exceptions.TypeError")
          (getErrorCls [] "exceptions.TypeError").2).getD
            Cls.root).isSubclassOf Cls.root = true ∧
      ((getErrorCls [] "exceptions.TypeError").1).isSubclassOf Cls.root = true ∧
      getErrorCls (getErrorCls [] "exceptions.TypeError").2
          "exceptions.TypeError" =
        getErrorCls [] "exceptions.TypeError" ∧
      cacheOK (getErrorCls [] "exceptions.TypeError").2 = true) :=
  ⟨rfl, error_class_synthesis [] "exceptions.TypeError" rfl⟩

/-- Claim C10, counterexample: check the only object of a maxsize-1 pool
out, then leave the with block by an exception; the append after the yield
is skipped, so the object is not re-added to the free list (the free list
stays empty), although the semaphore is released. -/
theorem pool_exn_release_counterexample :
    (PoolState.init 1).acquire =
      some (0, { free := [], checkedOut := [0], permits := 0, nextId := 1 }) ∧
    (PoolState.releaseExn
        { free := [], checkedOut := [0], permits := 0, nextId := 1 } 0).free = [] ∧
    ¬ 0 ∈ (PoolState.releaseExn
        { free := [], checkedOut := [0], permits := 0, nextId := 1 } 0).free ∧
    (PoolState.releaseExn
        { free := [], checkedOut := [0], permits := 0, nextId := 1 } 0).permits = 1 := by
  decide

/-- Claim C10 (amended): when the scoped handle from ObjectPool.get is
released after a normal exit of the with block, the object is re-added to
the free list and the semaphore is released; when the block exits by an
exception, the semaphore is still released but the object is discarded, not
re-added. On both exit paths the pool invariant is preserved, the combined
count of checked-out objects and free-list entries stays within maxsize, and
no checked-out object is simultaneously in the free list. -/
theorem pool_release (K : Nat) (s : PoolState) (o : Nat)
    (hinv : PoolState.inv K s = true) (ho : o ∈ s.checkedOut) :
    (s.releaseNormal o).free = s.free ++ [o] ∧
    (s.releaseNormal o).permits = s.permits + 1 ∧
    (s.releaseExn o).free = s.free ∧
    (s.releaseExn o).permits = s.permits + 1 ∧
    PoolState.inv K (s.releaseNormal o) = true ∧
    PoolState.inv K (s.releaseExn o) = true ∧
    (s.releaseNormal o).checkedOut.length + (s.releaseNormal o).free.length ≤ K ∧
    (s.releaseExn o).checkedOut.length + (s.releaseExn o).free.length ≤ K ∧
    (∀ x ∈ (s.releaseNormal o).checkedOut, x ∉ (s.releaseNormal o).free) ∧
    (∀ x ∈ (s.releaseExn o).checkedOut, x ∉ (s.releaseExn o).free) := by
  have hparts : (s.checkedOut.length + s.permits = K) ∧
      (s.free.length ≤ s.permits) ∧
      (s.free ++ s.checkedOut).Nodup ∧
      (∀ x ∈ s.free, x < s.nextId) ∧ (∀ x ∈ s.checkedOut, x < s.nextId) := by
    simpa [PoolState.inv, Bool.and_eq_true, decide_eq_true_eq,
           List.all_eq_true, and_assoc] using hinv
  obtain ⟨hlen, hfreelen, hnd, hboundf, hboundc⟩ := hparts
  obtain ⟨hndf, hndc, hdisj⟩ := List.nodup_append.mp hnd
  have hof : o ∉ s.free := fun hmem => hdisj hmem ho
  have hlenc : 0 < s.checkedOut.length := List.length_pos_of_mem ho
  have herase_len : (s.checkedOut.erase o).length = s.checkedOut.length - 1 :=
    List.length_erase_of_mem ho
  have hnderase : (s.checkedOut.erase o).Nodup := hndc.erase o
  have hnoterase : o ∉ s.checkedOut.erase o := hndc.not_mem_erase
  have heraseSub : s.checkedOut.erase o ⊆ s.checkedOut :=
    List.erase_subset o s.checkedOut
  have hnd_normal : ((s.free ++ [o]) ++ s.checkedOut.erase o).Nodup := by
    refine List.nodup_append.mpr ⟨?_, hnderase, ?_⟩
    · refine List.nodup_append.mpr ⟨hndf, List.nodup_singleton o, ?_⟩
      intro a haf hao
      rw [List.mem_singleton] at hao
      exact hof (hao ▸ haf)
    · intro a ha hae
      rcases List.mem_append.mp ha with haf | hao
      · exact hdisj haf (heraseSub hae)
      · rw [List.mem_singleton] at hao
        exact hnoterase (hao ▸ hae)
  have hnd_exn : (s.free ++ s.checkedOut.erase o).Nodup := by
    refine List.nodup_append.mpr ⟨hndf, hnderase, ?_⟩
    intro a haf hae
    exact hdisj haf (heraseSub hae)
  refine ⟨rfl, rfl, rfl, rfl, ?_, ?_, ?_, ?_, ?_, ?_⟩
  · show PoolState.inv K
      { free := s.free ++ [o], checkedOut := s.checkedOut.erase o,
        permits := s.permits + 1, nextId := s.nextId } = true
    simp only [PoolState.inv, Bool.and_eq_true, decide_eq_true_eq,
               List.all_eq_true]
    refine ⟨⟨⟨by rw [herase_len]; omega, by simp; omega⟩, ?_⟩, ?_⟩
    · exact hnd_normal
    · intro x hx
      rcases List.mem_append.mp hx with hx1 | hx2
      · rcases List.mem_append.mp hx1 with hx3 | hx4
        · exact hboundf x hx3
        · rw [List.mem_singleton] at hx4
          exact hx4 ▸ hboundc o ho
      · exact hboundc x (heraseSub hx2)
  · show PoolState.inv K
      { free := s.free, checkedOut := s.checkedOut.erase o,
        permits := s.permits + 1, nextId := s.nextId } = true
    simp only [PoolState.inv, Bool.and_eq_true, decide_eq_true_eq,
               List.all_eq_true]
    refine ⟨⟨⟨by rw [herase_len]; omega, by omega⟩, ?_⟩, ?_⟩
    · exact hnd_exn
    · intro x hx
      rcases List.mem_append.mp hx with hx1 | hx2
      · exact hboundf x hx1
      · exact hboundc x (heraseSub hx2)
  · show (s.checkedOut.erase o).length + (s.free ++ [o]).length ≤ K
    rw [herase_len]
    simp
    omega
  · show (s.checkedOut.erase o).length + s.free.length ≤ K
    rw [herase_len]
    omega
  · intro x hx
    have hxc : x ∈ s.checkedOut.erase o := hx
    intro hxf
    rcases List.mem_append.mp hxf with hxf1 | hxf2
    · exact hdisj hxf1 (heraseSub hxc)
    · rw [List.mem_singleton] at hxf2
      exact hnoterase (hxf2 ▸ hxc)
  · intro x hx
    have hxc : x ∈ s.checkedOut.erase o := hx
    intro hxf
    exact hdisj hxf (heraseSub hxc)

/-- Claim C10, witness: a maxsize-2 pool with one object free and one
checked out, releasing the checked-out object. -/
theorem pool_release_witness :
    PoolState.inv 2 { free := [1], checkedOut := [0], permits := 1, nextId := 2 } = true ∧
    0 ∈ ({ free := [1], checkedOut := [0], permits := 1, nextId := 2 } : PoolState).checkedOut ∧
    PoolState.inv 2 (PoolState.releaseNormal
      { free := [1], checkedOut := [0], permits := 1, nextId := 2 } 0) = true ∧
    PoolState.inv 2 (PoolState.releaseExn
      { free := [1], checkedOut := [0], permits := 1, nextId := 2 } 0) = true :=
  ⟨by decide, by decide,
   (pool_release 2 { free := [1], checkedOut := [0], permits := 1, nextId := 2 } 0
      (by decide) (by decide)).2.2.2.2.1,
   (pool_release 2 { free := [1], checkedOut := [0], permits := 1, nextId := 2 } 0
      (by decide) (by decide)).2.2.2.2.2.1⟩
